import Mathlib

/-!
Shallow embedding of the parse-coordination layer in `src/core/src/parser.rs`
(an Emacs dynamic-module binding over the tree-sitter engine).

The grammar engine (`tree_sitter::Parser::{set_language, parse, parse_with,
set_included_ranges, timeout_micros, set_timeout_micros}`) is an external
collaborator.  Its configuration surface is embedded as record operations on
`TSParser`, following the tree-sitter crate's documented behaviour; its parse
behaviour is kept arbitrary via the `Engine` record, so theorems quantify over
every engine behaviour compatible with the collaborator interface.

`Shared<Tree>` is `Rc<RefCell<Tree>>`; the `RefCell` dynamic borrow state is
made explicit in `SharedTree.borrows`, with `try_borrow` failing exactly when
a mutable borrow is outstanding (std `RefCell` semantics).
-/

namespace TSC

/-- A syntax tree produced by the grammar engine; its payload is opaque to the
coordination layer, so it is represented by an identifier only. -/
structure Tree where
  id : Nat
deriving DecidableEq, Repr

/-- Dynamic borrow state of a `RefCell`: number of outstanding mutable borrows
(0 or 1 in any real execution) and outstanding shared borrows. -/
structure BorrowState where
  mutBorrows : Nat
  sharedBorrows : Nat
deriving DecidableEq, Repr

/-- `Shared<Tree> = Rc<RefCell<Tree>>`: the tree together with the borrow
state of its cell. -/
structure SharedTree where
  val : Tree
  borrows : BorrowState
deriving DecidableEq, Repr

/-- `fn shared<T>(t: T) -> Shared<T>`: wraps a fresh value, so the new cell
has no outstanding borrows. -/
def shared (t : Tree) : SharedTree := ⟨t, ⟨0, 0⟩⟩

/-- Error values surfaced to the host through `emacs::Result`: a named Lisp
signal with payload, or a propagated `RefCell` borrow failure. -/
inductive Error where
  | signal (sym : String) (payload : List Nat) : Error
  | borrowConflict : Error
deriving DecidableEq, Repr

/-- A loaded grammar (`Language`): carries its compiled ABI version tag. -/
structure Lang where
  abi : Nat
deriving DecidableEq, Repr

/-- tree-sitter `Range`: a document span in byte and point form. -/
structure TSRange where
  startByte : Nat
  endByte : Nat
  startPoint : Nat × Nat
  endPoint : Nat × Nat
deriving DecidableEq, Repr

/-- Engine-side parser configuration (`tree_sitter::Parser`). -/
structure TSParser where
  lang : Option Lang
  timeoutMicros : Nat
  includedRanges : List TSRange
deriving DecidableEq, Repr

/-- Minimum grammar ABI version the engine accepts
(tree-sitter `MIN_COMPATIBLE_LANGUAGE_VERSION`). -/
def minCompatibleAbi : Nat := 13

/-- ABI version the engine itself speaks (tree-sitter `LANGUAGE_VERSION`). -/
def engineAbiVersion : Nat := 14

/-- The engine's ABI compatibility check on a grammar's version tag. -/
def abiCompatible (v : Nat) : Bool :=
  decide (minCompatibleAbi ≤ v ∧ v ≤ engineAbiVersion)

/-- Engine collaborator `Parser::set_language` (spec section 6 `attach`):
validates the grammar's ABI version; on mismatch it fails, reporting the
offending version, and leaves the parser configuration untouched. -/
def ts_set_language (p : TSParser) (l : Lang) : Except Nat TSParser :=
  if abiCompatible l.abi then .ok { p with lang := some l } else .error l.abi

/-- The engine's included-ranges validation: scanning left to right with the
previous range's end byte, every range must start at or after it and must end
at or after its own start (well-formed, ordered, non-overlapping).  Returns
the index of the first offending range, or `none` when the set is valid
(tree-sitter `IncludedRangesError(usize)`). -/
def rangesCheckFrom : Nat → Nat → List TSRange → Option Nat
  | _, _, [] => none
  | i, prevEnd, r :: rest =>
    if prevEnd ≤ r.startByte ∧ r.startByte ≤ r.endByte then
      rangesCheckFrom (i + 1) r.endByte rest
    else some i

/-- A ranges set is valid when the engine's check finds no offending range. -/
def rangesValid (rs : List TSRange) : Bool :=
  (rangesCheckFrom 0 0 rs).isNone

/-- Engine collaborator `Parser::set_included_ranges`: validates the set;
on success installs it, on failure reports the first offending index and
leaves the configuration unchanged. -/
def ts_set_included_ranges (p : TSParser) (rs : List TSRange) :
    Except Nat TSParser :=
  match rangesCheckFrom 0 0 rs with
  | none => .ok { p with includedRanges := rs }
  | some i => .error i

/-- The engine's parse behaviour, kept arbitrary: the chunk requests it
issues during `parse_with` (internal 0-based byte offset, row, column), the
tree it builds from the fragments it received plus the optional old tree, and
its whole-string `parse` result.  `none` models the engine reporting an
unrecovered parse failure. -/
structure Engine where
  requests : List (Nat × Nat × Nat)
  mkTree : TSParser → List String → Option Tree → Option Tree
  parseString : TSParser → String → Option Tree → Option Tree

/-! ## Module functions from `parser.rs` -/

/-- `fn set_language`: attach LANGUAGE to PARSER; an engine ABI mismatch is
turned into a `tsc-lang-abi-error` signal by `or_signal`, leaving the parser
as it was.  Returns the host-visible result plus the parser afterward. -/
def set_language (p : TSParser) (l : Lang) : Except Error Unit × TSParser :=
  match ts_set_language p l with
  | .ok p' => (.ok (), p')
  | .error v => (.error (.signal "tsc-lang-abi-error" [v]), p)

/-- `fn language`: return PARSER's current language. -/
def language (p : TSParser) : Option Lang := p.lang

/-- `fn _timeout_micros`: the parse duration limit, read from the engine. -/
def _timeout_micros (p : TSParser) : Nat := p.timeoutMicros

/-- `fn _set_timeout_micros`: store MAX-DURATION in the engine. -/
def _set_timeout_micros (p : TSParser) (maxDuration : Nat) : TSParser :=
  { p with timeoutMicros := maxDuration }

/-- Modelled from the spec: `BytePos`'s `From<usize>` conversion lives in
`types.rs`, which is not under `src/`; per spec section 3, the host-facing
byte position is the internal 0-based offset plus one. -/
def bytePosOfInternal (b : Nat) : Nat := b + 1

/-- Modelled from the spec: `Point::line_number` lives in `types.rs`, not
under `src/`; per spec sections 3 and 6, the host-facing line number is
1-based, i.e. the internal 0-based row plus one. -/
def lineNumberOfRow (r : Nat) : Nat := r + 1

/-- Modelled from the spec: `Point::byte_column` lives in `types.rs`, not
under `src/`; per spec sections 3 and 6 it is the 0-based raw byte column,
passed through unchanged. -/
def byteColumnOfCol (c : Nat) : Nat := c

/-- The argument triple the chunk closure hands to INPUT-FUNCTION for an
engine request `(byte, row, col)`:
`(bytepos, point.line_number(), point.byte_column())`. -/
def callArgs (req : Nat × Nat × Nat) : Nat × Nat × Nat :=
  (bytePosOfInternal req.1, lineNumberOfRow req.2.1, byteColumnOfCol req.2.2)

/-- The host-supplied INPUT-FUNCTION together with the `into_rust` string
conversion: called with (BYTEPOS, LINE-NUMBER, BYTE-COLUMN), it yields a
fragment or raises an error. -/
def InputFn : Type := Nat → Nat → Nat → Except Error String

/-- The fragment the closure returns to the engine for one request: the
fragment produced by INPUT-FUNCTION, or the empty string when the call
raised an error (`unwrap_or_else`). -/
def callFrag (f : InputFn) (req : Nat × Nat × Nat) : String :=
  match f (callArgs req).1 (callArgs req).2.1 (callArgs req).2.2 with
  | .ok s => s
  | .error _ => ""

/-- The error, if any, a single request's call raised. -/
def callErr (f : InputFn) (req : Nat × Nat × Nat) : Option Error :=
  match f (callArgs req).1 (callArgs req).2.1 (callArgs req).2.2 with
  | .ok _ => none
  | .error e => some e

/-- The fragments handed to the engine across a whole `parse_with` run. -/
def feedFrags (f : InputFn) (reqs : List (Nat × Nat × Nat)) : List String :=
  reqs.map (callFrag f)

/-- Final contents of a deferred-error slot written by a sequence of optional
errors: each raised error overwrites the slot, so the last one wins. -/
def lastSlot : List (Option Error) → Option Error
  | [] => none
  | o :: rest =>
    match lastSlot rest with
    | some e => some e
    | none => o

/-- Final contents of `input_error` after the engine made all its requests:
each failing call overwrote the slot, so it holds the last error raised. -/
def feedErr (f : InputFn) (reqs : List (Nat × Nat × Nat)) : Option Error :=
  lastSlot (reqs.map (callErr f))

deriving instance DecidableEq for Except

/-- Everything observable about one `parse_chunks` run: the host-visible
result (`none` models the `.unwrap()` panic on an engine failure), whether
the engine's `parse_with` was reached, the argument triples INPUT-FUNCTION
was called with, and the fragments handed to the engine. -/
structure ChunksOutcome where
  result : Option (Except Error SharedTree)
  engineCalled : Bool
  calls : List (Nat × Nat × Nat)
  fragments : List String
deriving DecidableEq, Repr

/-- The borrowed old tree passed to the engine as baseline. -/
def baselineOf : Option SharedTree → Option Tree
  | none => none
  | some t => some t.val

/-- `RefCell::try_borrow` on the old tree succeeds exactly when no mutable
borrow is outstanding; shared borrows do not conflict with it. -/
def borrowOk : Option SharedTree → Bool
  | none => true
  | some t => t.borrows.mutBorrows == 0

/-- `fn parse_chunks`: borrow OLD-TREE (propagating a borrow failure before
the engine is touched), drive the engine's `parse_with` with the
error-capturing chunk closure, `.unwrap()` the engine's result (a panic when
it is `None`), then return the deferred input error if one was captured, and
otherwise the tree as a fresh shared handle. -/
def parse_chunks (e : Engine) (p : TSParser) (f : InputFn)
    (old : Option SharedTree) : ChunksOutcome :=
  if borrowOk old then
    { result :=
        match e.mkTree p (feedFrags f e.requests) (baselineOf old) with
        | none => none
        | some tree =>
          match feedErr f e.requests with
          | none => some (.ok (shared tree))
          | some er => some (.error er)
      engineCalled := true
      calls := e.requests.map callArgs
      fragments := feedFrags f e.requests }
  else ⟨some (.error .borrowConflict), false, [], []⟩

/-- `fn parse_string`: hand the whole INPUT string to the engine's `parse`
with no old tree, `.unwrap()` the result (a panic when it is `None`), and
wrap the tree as a fresh shared handle. -/
def parse_string (e : Engine) (p : TSParser) (input : String) :
    Option (Except Error SharedTree) :=
  match e.parseString p input none with
  | none => none
  | some tree => some (.ok (shared tree))

/-- The parse-from-string entry point as the spec's words describe it
(spec section 4.5): additionally takes an optional previous Tree Handle and
passes it to the engine as the incremental baseline.  Written only to be
compared with `parse_string`, which is embedded from the source. -/
def parse_string_specVersion (e : Engine) (p : TSParser) (input : String)
    (old : Option SharedTree) : Option (Except Error SharedTree) :=
  match e.parseString p input (baselineOf old) with
  | none => none
  | some tree => some (.ok (shared tree))

/-- Outcome of `set_included_ranges`: host-visible result, the parser
afterward, whether the engine's range-setting operation was reached, and how
many vector elements were read. -/
structure RangesOutcome where
  result : Except Error Unit
  parser : TSParser
  engineCalled : Bool
  examined : Nat
deriving DecidableEq, Repr

/-- The `for i in 0..len { ranges.get(i)? }` conversion loop: elements are
read and converted left to right; the first conversion failure aborts the
loop, propagating that element's error. -/
def convertRanges : List (Except Error TSRange) → Except Error (List TSRange)
  | [] => .ok []
  | .error e :: _ => .error e
  | .ok r :: rest => (convertRanges rest).map (r :: ·)

/-- How many vector elements the conversion loop reads: all of them when
every conversion succeeds, none past the first failing one. -/
def examinedCount : List (Except Error TSRange) → Nat
  | [] => 0
  | .ok _ :: rest => 1 + examinedCount rest
  | .error _ :: _ => 1

/-- `fn set_included_ranges`: convert RANGES element by element (propagating
a conversion error before the engine is touched), then hand the converted
vector to the engine; an engine rejection is signalled as
`tsc-invalid-ranges` carrying the offending index, leaving the parser as it
was.  The Emacs vector is embedded as the list of its elements' conversion
outcomes. -/
def set_included_ranges (p : TSParser) (ranges : List (Except Error TSRange)) :
    RangesOutcome :=
  match convertRanges ranges with
  | .error e => ⟨.error e, p, false, examinedCount ranges⟩
  | .ok rs =>
    match ts_set_included_ranges p rs with
    | .ok p' => ⟨.ok (), p', true, examinedCount ranges⟩
    | .error i =>
      ⟨.error (.signal "tsc-invalid-ranges" [i]), p, true, examinedCount ranges⟩

/-! ## Position model (spec section 4.1)

Modelled from the spec: the Position Model lives in `types.rs`, which is not
under `src/`.  A document is a list of bytes (10 being the newline byte); the
internal position of an offset is its 0-based (line, byte-column) pair, the
byte column counting raw bytes on the current line. -/

/-- Modelled from the spec: internal (line, byte-column) of a byte offset,
obtained by scanning the document's first `off` bytes. -/
def posOfOffset : List Nat → Nat → Nat × Nat
  | _, 0 => (0, 0)
  | [], n + 1 => (0, n + 1)
  | b :: rest, n + 1 =>
    if b = 10 then ((posOfOffset rest n).1 + 1, (posOfOffset rest n).2)
    else if (posOfOffset rest n).1 = 0 then (0, (posOfOffset rest n).2 + 1)
    else posOfOffset rest n

/-- Modelled from the spec: absolute byte offset of an internal
(line, byte-column) pair: the start offset of the line plus the column. -/
def offsetOfPos : List Nat → Nat → Nat → Nat
  | _, 0, col => col
  | [], _ + 1, col => col
  | b :: rest, l + 1, col =>
    1 + (if b = 10 then offsetOfPos rest l col else offsetOfPos rest (l + 1) col)

/-! ## Helper lemmas -/

/-- Converting a vector whose elements all convert successfully yields the
underlying range list. -/
theorem convertRanges_map_ok (rs : List TSRange) :
    convertRanges (rs.map .ok) = .ok rs := by
  induction rs with
  | nil => rfl
  | cons r rest ih => simp [convertRanges, ih, Except.map]

/-- A vector whose first conversion failure sits after `pre.length` successes
converts to that failure, after reading exactly `pre.length + 1` elements. -/
theorem convertRanges_first_error (pre : List TSRange) (e : Error)
    (post : List (Except Error TSRange)) :
    convertRanges (pre.map .ok ++ .error e :: post) = .error e ∧
    examinedCount (pre.map .ok ++ .error e :: post) = pre.length + 1 := by
  induction pre with
  | nil => simp [convertRanges, examinedCount]
  | cons r rest ih =>
    refine ⟨?_, ?_⟩
    · simp [convertRanges, ih.1, Except.map]
    · simp [examinedCount, ih.2]
      omega

/-! ## Claim theorems -/

/-- Claim C9: setting the parse timeout to `d` microseconds and reading it
back returns exactly `d`, and the set operation changes no other parser
configuration (language and included ranges are untouched). -/
theorem timeout_get_after_set (p : TSParser) (d : Nat) :
    _timeout_micros (_set_timeout_micros p d) = d ∧
    (_set_timeout_micros p d).lang = p.lang ∧
    (_set_timeout_micros p d).includedRanges = p.includedRanges :=
  ⟨rfl, rfl, rfl⟩

/-- Claim C6: attaching a language with an incompatible ABI version fails
with a recoverable `tsc-lang-abi-error` signal and leaves the parser — in
particular its previously attached language — untouched; a language attached
successfully before the failing attach is still the parser's language
afterward. -/
theorem set_language_abi_mismatch (p : TSParser) (l l1 : Lang)
    (hbad : abiCompatible l.abi = false) (hgood : abiCompatible l1.abi = true) :
    (set_language p l).1 = .error (.signal "tsc-lang-abi-error" [l.abi]) ∧
    (set_language p l).2 = p ∧
    (set_language (set_language p l1).2 l).2.lang = some l1 := by
  refine ⟨?_, ?_, ?_⟩ <;>
    simp [set_language, ts_set_language, hbad, hgood]

/-- Witness for C6 at a concrete parser and concrete ABI versions 12 / 14. -/
theorem set_language_abi_mismatch_witness :
    abiCompatible 12 = false ∧ abiCompatible 14 = true ∧
    ((set_language ⟨none, 0, []⟩ ⟨12⟩).1 =
        .error (.signal "tsc-lang-abi-error" [12]) ∧
      (set_language ⟨none, 0, []⟩ ⟨12⟩).2 = ⟨none, 0, []⟩ ∧
      (set_language (set_language ⟨none, 0, []⟩ ⟨14⟩).2 ⟨12⟩).2.lang =
        some ⟨14⟩) :=
  ⟨by decide, by decide,
    set_language_abi_mismatch ⟨none, 0, []⟩ ⟨12⟩ ⟨14⟩ (by decide) (by decide)⟩

/-- Claim C5: a ranges vector the engine's validation rejects (malformed,
overlapping or wrongly ordered spans) is refused with a
`tsc-invalid-ranges` signal, and the parser — in particular its previously
configured included-ranges set — is left unchanged. -/
theorem set_included_ranges_invalid_rejected (p : TSParser)
    (rs : List TSRange) (i : Nat) (hbad : rangesCheckFrom 0 0 rs = some i) :
    (set_included_ranges p (rs.map .ok)).result =
      .error (.signal "tsc-invalid-ranges" [i]) ∧
    (set_included_ranges p (rs.map .ok)).parser = p ∧
    (set_included_ranges p (rs.map .ok)).parser.includedRanges =
      p.includedRanges := by
  refine ⟨?_, ?_, ?_⟩ <;>
    simp [set_included_ranges, convertRanges_map_ok, ts_set_included_ranges,
      hbad]

/-- Witness for C5: the spec's example — setting the overlapping pair
`[(0,10),(5,15)]` on a parser whose active configuration is
`[(0,5),(10,20)]` fails and leaves that configuration active. -/
theorem set_included_ranges_invalid_rejected_witness :
    rangesCheckFrom 0 0
        [⟨0, 10, (0, 0), (0, 10)⟩, ⟨5, 15, (0, 5), (0, 15)⟩] = some 1 ∧
    ((set_included_ranges
          ⟨none, 0, [⟨0, 5, (0, 0), (0, 5)⟩, ⟨10, 20, (0, 10), (0, 20)⟩]⟩
          ([⟨0, 10, (0, 0), (0, 10)⟩, ⟨5, 15, (0, 5), (0, 15)⟩].map .ok)).result
        = .error (.signal "tsc-invalid-ranges" [1]) ∧
      (set_included_ranges
          ⟨none, 0, [⟨0, 5, (0, 0), (0, 5)⟩, ⟨10, 20, (0, 10), (0, 20)⟩]⟩
          ([⟨0, 10, (0, 0), (0, 10)⟩, ⟨5, 15, (0, 5), (0, 15)⟩].map .ok)).parser
        = ⟨none, 0, [⟨0, 5, (0, 0), (0, 5)⟩, ⟨10, 20, (0, 10), (0, 20)⟩]⟩ ∧
      (set_included_ranges
          ⟨none, 0, [⟨0, 5, (0, 0), (0, 5)⟩, ⟨10, 20, (0, 10), (0, 20)⟩]⟩
          ([⟨0, 10, (0, 0), (0, 10)⟩, ⟨5, 15, (0, 5), (0, 15)⟩].map
            .ok)).parser.includedRanges
        = [⟨0, 5, (0, 0), (0, 5)⟩, ⟨10, 20, (0, 10), (0, 20)⟩]) :=
  ⟨by decide,
    set_included_ranges_invalid_rejected
      ⟨none, 0, [⟨0, 5, (0, 0), (0, 5)⟩, ⟨10, 20, (0, 10), (0, 20)⟩]⟩
      [⟨0, 10, (0, 0), (0, 10)⟩, ⟨5, 15, (0, 5), (0, 15)⟩] 1 (by decide)⟩

/-- Claim C10: when converting the element after `pre.length` successful
conversions fails, `set_included_ranges` propagates that element's error
before the engine's range-setting operation is ever invoked, leaves the
parser unchanged, and never examines the elements past the failing one
(exactly `pre.length + 1` elements are read). -/
theorem set_included_ranges_conversion_error (p : TSParser)
    (pre : List TSRange) (e : Error) (post : List (Except Error TSRange)) :
    (set_included_ranges p (pre.map .ok ++ .error e :: post)).result =
      .error e ∧
    (set_included_ranges p (pre.map .ok ++ .error e :: post)).engineCalled =
      false ∧
    (set_included_ranges p (pre.map .ok ++ .error e :: post)).parser = p ∧
    (set_included_ranges p (pre.map .ok ++ .error e :: post)).examined =
      pre.length + 1 := by
  have h := convertRanges_first_error pre e post
  refine ⟨?_, ?_, ?_, ?_⟩ <;> simp [set_included_ranges, h.1, h.2]

/-! ## Concrete engines and inputs for witnesses and counterexamples -/

/-- An empty default parser configuration. -/
def p0 : TSParser := ⟨none, 0, []⟩

/-- An input function that always produces the empty fragment. -/
def okInput : InputFn := fun _ _ _ => .ok ""

/-- A demonstration engine whose whole-string parse records whether it was
handed a baseline tree: tree id `old.id + 100` with a baseline, `7` without;
its chunked parse always yields tree `1` from one request at the origin. -/
def baselineProbeEngine : Engine where
  requests := [(0, 0, 0)]
  mkTree := fun _ _ _ => some ⟨1⟩
  parseString := fun _ _ old =>
    match old with
    | some t => some ⟨t.id + 100⟩
    | none => some ⟨7⟩

/-- A demonstration engine that always reports an unrecovered parse
failure. -/
def defectEngine : Engine where
  requests := []
  mkTree := fun _ _ _ => none
  parseString := fun _ _ _ => none

/-- Claim C2: when the grammar engine reports an unrecovered parse failure
(`parse_with`/`parse` yields no tree), `parse_chunks` and `parse_string`
surface no typed recoverable error value — the branch is a defect (the
`.unwrap()` panic, modelled as the `none` outcome) — and under the
precondition that the engine yields a tree, the defect branch is
unreachable. -/
theorem engine_failure_is_defect (e : Engine) (p : TSParser) (f : InputFn)
    (old : Option SharedTree) (s : String) :
    (borrowOk old = true →
      e.mkTree p (feedFrags f e.requests) (baselineOf old) = none →
      (parse_chunks e p f old).result = none) ∧
    (borrowOk old = true →
      (∃ t, e.mkTree p (feedFrags f e.requests) (baselineOf old) = some t) →
      (parse_chunks e p f old).result ≠ none) ∧
    (e.parseString p s none = none → parse_string e p s = none) ∧
    ((∃ t, e.parseString p s none = some t) → parse_string e p s ≠ none) := by
  refine ⟨?_, ?_, ?_, ?_⟩
  · intro hb hnone
    simp [parse_chunks, hb, hnone]
  · rintro hb ⟨t, ht⟩
    cases herr : feedErr f e.requests <;>
      simp [parse_chunks, hb, ht, herr]
  · intro hnone
    simp [parse_string, hnone]
  · rintro ⟨t, ht⟩
    simp [parse_string, ht]

/-- Witness for C2: the always-failing engine makes both entry points reach
the defect outcome, and an engine that yields a tree never does. -/
theorem engine_failure_is_defect_witness :
    (parse_chunks defectEngine p0 okInput none).result = none ∧
    parse_string defectEngine p0 "x" = none ∧
    (parse_chunks baselineProbeEngine p0 okInput none).result ≠ none ∧
    parse_string baselineProbeEngine p0 "x" ≠ none :=
  ⟨(engine_failure_is_defect defectEngine p0 okInput none "x").1 rfl rfl,
    (engine_failure_is_defect defectEngine p0 okInput none "x").2.2.1 rfl,
    (engine_failure_is_defect baselineProbeEngine p0 okInput none "x").2.1 rfl
      ⟨⟨1⟩, rfl⟩,
    (engine_failure_is_defect baselineProbeEngine p0 okInput none "x").2.2.2
      ⟨⟨7⟩, rfl⟩⟩

/-- Counterexample to claim C3: the parse-from-string entry point in the
source has no previous-tree parameter and always hands the engine `none` as
baseline; an engine whose result depends on the baseline distinguishes it
from the spec's described entry point, which would pass the supplied
previous tree. -/
theorem parse_string_ignores_baseline_cex :
    parse_string baselineProbeEngine p0 "ab" = some (.ok (shared ⟨7⟩)) ∧
    parse_string_specVersion baselineProbeEngine p0 "ab"
        (some (shared ⟨1⟩)) = some (.ok (shared ⟨101⟩)) ∧
    parse_string baselineProbeEngine p0 "ab" ≠
      parse_string_specVersion baselineProbeEngine p0 "ab"
        (some (shared ⟨1⟩)) := by
  refine ⟨rfl, rfl, ?_⟩
  decide

/-- Claim C3 as amended: the parse-from-string entry point takes only a
complete source string, hands the whole string to the engine at once with no
incremental baseline (`none`), and returns the engine's tree as a new shared
Tree Handle. -/
theorem parse_string_whole_no_baseline (e : Engine) (p : TSParser)
    (input : String) (t : Tree) (h : e.parseString p input none = some t) :
    parse_string e p input = some (.ok (shared t)) := by
  simp [parse_string, h]

/-- Witness for the amended C3 at a concrete engine and input. -/
theorem parse_string_whole_no_baseline_witness :
    baselineProbeEngine.parseString p0 "ab" none = some ⟨7⟩ ∧
    parse_string baselineProbeEngine p0 "ab" = some (.ok (shared ⟨7⟩)) :=
  ⟨rfl, parse_string_whole_no_baseline baselineProbeEngine p0 "ab" ⟨7⟩ rfl⟩

/-- Counterexample to claim C4: an outstanding *shared* (read) access on the
old Tree Handle is "another access in progress", yet `parse_chunks` does not
fail with a borrow conflict — the engine runs and the parse succeeds,
because `try_borrow` only conflicts with an outstanding mutable borrow. -/
theorem parse_chunks_shared_access_no_conflict_cex :
    (parse_chunks baselineProbeEngine p0 okInput
        (some ⟨⟨3⟩, ⟨0, 1⟩⟩)).result = some (.ok (shared ⟨1⟩)) ∧
    (parse_chunks baselineProbeEngine p0 okInput
        (some ⟨⟨3⟩, ⟨0, 1⟩⟩)).engineCalled = true :=
  ⟨rfl, rfl⟩

/-- The old Tree Handle after the conflicting exclusive access is
released. -/
def released (t : SharedTree) : SharedTree :=
  ⟨t.val, ⟨0, t.borrows.sharedBorrows⟩⟩

/-- Claim C4 as amended: using a Tree Handle as the parse baseline acquires
a shared borrow, which fails fast with `BorrowConflict` — without invoking
the engine — exactly when an exclusive (mutable) access is outstanding;
outstanding shared accesses do not conflict, and once the exclusive access
is released the same call succeeds. -/
theorem parse_chunks_borrow_conflict (e : Engine) (p : TSParser)
    (f : InputFn) (t : SharedTree) (tr : Tree)
    (hmut : t.borrows.mutBorrows ≠ 0)
    (hengine : e.mkTree p (feedFrags f e.requests) (some t.val) = some tr)
    (hnoerr : feedErr f e.requests = none) :
    (parse_chunks e p f (some t)).result = some (.error .borrowConflict) ∧
    (parse_chunks e p f (some t)).engineCalled = false ∧
    (parse_chunks e p f (some t)).calls = [] ∧
    (parse_chunks e p f (some (released t))).result =
      some (.ok (shared tr)) := by
  have hb : borrowOk (some t) = false := by
    simp [borrowOk, hmut]
  have hb' : borrowOk (some (released t)) = true := by
    simp [borrowOk, released]
  refine ⟨?_, ?_, ?_, ?_⟩
  · simp [parse_chunks, hb]
  · simp [parse_chunks, hb]
  · simp [parse_chunks, hb]
  · simp [parse_chunks, borrowOk, released, baselineOf, hengine, hnoerr]

/-- Witness for the amended C4: a handle with an edit in progress conflicts;
the released handle parses successfully. -/
theorem parse_chunks_borrow_conflict_witness :
    (⟨⟨3⟩, ⟨1, 0⟩⟩ : SharedTree).borrows.mutBorrows ≠ 0 ∧
    ((parse_chunks baselineProbeEngine p0 okInput
          (some ⟨⟨3⟩, ⟨1, 0⟩⟩)).result = some (.error .borrowConflict) ∧
      (parse_chunks baselineProbeEngine p0 okInput
          (some ⟨⟨3⟩, ⟨1, 0⟩⟩)).engineCalled = false ∧
      (parse_chunks baselineProbeEngine p0 okInput
          (some ⟨⟨3⟩, ⟨1, 0⟩⟩)).calls = [] ∧
      (parse_chunks baselineProbeEngine p0 okInput
          (some (released ⟨⟨3⟩, ⟨1, 0⟩⟩))).result =
        some (.ok (shared ⟨1⟩))) :=
  ⟨by decide,
    parse_chunks_borrow_conflict baselineProbeEngine p0 okInput
      ⟨⟨3⟩, ⟨1, 0⟩⟩ ⟨1⟩ (by decide) rfl rfl⟩

/-- Claim C7: for every fragment request the engine issues at internal
0-based byte offset `b` and internal point `(r, c)`, the input function is
invoked with exactly the 1-based byte position `b + 1`, the 1-based line
number `r + 1`, and the 0-based raw byte column `c`. -/
theorem parse_chunks_call_convention (e : Engine) (p : TSParser)
    (f : InputFn) (old : Option SharedTree) (i b r c : Nat)
    (hb : borrowOk old = true)
    (hreq : e.requests[i]? = some (b, r, c)) :
    (parse_chunks e p f old).calls[i]? =
      some (bytePosOfInternal b, lineNumberOfRow r, byteColumnOfCol c) := by
  have hcalls : (parse_chunks e p f old).calls = e.requests.map callArgs := by
    simp [parse_chunks, hb]
  rw [hcalls, List.getElem?_map, hreq]
  rfl

/-- Witness for C7: a request at internal byte 5, row 2, column 7 turns into
the call `(6, 3, 7)`. -/
theorem parse_chunks_call_convention_witness :
    borrowOk none = true ∧
    (⟨[(5, 2, 7)], fun _ _ _ => some ⟨1⟩, fun _ _ _ => some ⟨1⟩⟩ :
        Engine).requests[0]? = some (5, 2, 7) ∧
    (parse_chunks
        ⟨[(5, 2, 7)], fun _ _ _ => some ⟨1⟩, fun _ _ _ => some ⟨1⟩⟩
        p0 okInput none).calls[0]? = some (6, 3, 7) :=
  ⟨rfl, rfl,
    parse_chunks_call_convention
      ⟨[(5, 2, 7)], fun _ _ _ => some ⟨1⟩, fun _ _ _ => some ⟨1⟩⟩
      p0 okInput none 0 5 2 7 rfl rfl⟩

/-- A slot written only by `none` entries ends up empty. -/
theorem lastSlot_of_all_none (l : List (Option Error))
    (h : l.all Option.isNone = true) : lastSlot l = none := by
  induction l with
  | nil => rfl
  | cons o rest ih =>
    rw [List.all_cons, Bool.and_eq_true] at h
    rw [lastSlot, ih h.2]
    cases o with
    | none => rfl
    | some e => simp at h

/-- If entry `i` writes `er` and every later entry writes nothing, the slot
ends up holding `er`. -/
theorem lastSlot_errAt (l : List (Option Error)) (i : Nat) (er : Error)
    (hi : l[i]? = some (some er))
    (hafter : (l.drop (i + 1)).all Option.isNone = true) :
    lastSlot l = some er := by
  induction l generalizing i with
  | nil => simp at hi
  | cons o rest ih =>
    cases i with
    | zero =>
      simp at hi
      rw [List.drop_succ_cons, List.drop_zero] at hafter
      rw [lastSlot, lastSlot_of_all_none rest hafter, hi]
    | succ n =>
      rw [List.getElem?_cons_succ] at hi
      rw [List.drop_succ_cons] at hafter
      rw [lastSlot, ih n hi hafter]

/-- A request whose call raised an error hands the engine the empty
fragment. -/
theorem callFrag_of_callErr (f : InputFn) (req : Nat × Nat × Nat)
    (er : Error) (h : callErr f req = some er) : callFrag f req = "" := by
  revert h
  unfold callErr callFrag
  cases f (callArgs req).1 (callArgs req).2.1 (callArgs req).2.2 with
  | ok s => intro h; simp at h
  | error e => intro h; rfl

/-- Claim C1: if the input function raises an error on the engine's call
`i` during `parse_chunks` and no later call raises one, then — however many
fragments were successfully returned on earlier calls, and although the
engine (having a language attached) produced a tree — `parse_chunks` returns
exactly that error, returns no tree, and the fragment handed to the engine
for the failing call is the empty string. -/
theorem parse_chunks_input_error_wins (e : Engine) (p : TSParser)
    (f : InputFn) (old : Option SharedTree) (i : Nat) (er : Error) (tr : Tree)
    (hb : borrowOk old = true)
    (hengine : e.mkTree p (feedFrags f e.requests) (baselineOf old) =
      some tr)
    (herr : (e.requests.map (callErr f))[i]? = some (some er))
    (hlast : ((e.requests.map (callErr f)).drop (i + 1)).all Option.isNone =
      true) :
    (parse_chunks e p f old).result = some (.error er) ∧
    (∀ t, (parse_chunks e p f old).result ≠ some (.ok t)) ∧
    (parse_chunks e p f old).fragments[i]? = some "" := by
  have hfeed : feedErr f e.requests = some er :=
    lastSlot_errAt (e.requests.map (callErr f)) i er herr hlast
  have hres : (parse_chunks e p f old).result = some (.error er) := by
    simp [parse_chunks, hb, hengine, feedErr] at hfeed ⊢
    simp [hfeed]
  refine ⟨hres, ?_, ?_⟩
  · intro t hcontra
    rw [hres] at hcontra
    simp at hcontra
  · have hfr : (parse_chunks e p f old).fragments = feedFrags f e.requests := by
      simp [parse_chunks, hb]
    rw [hfr]
    rw [List.getElem?_map] at herr
    cases hreq : e.requests[i]? with
    | none => rw [hreq] at herr; simp at herr
    | some req =>
      rw [hreq] at herr
      simp at herr
      unfold feedFrags
      rw [List.getElem?_map, hreq]
      simp [callFrag_of_callErr f req er herr]

/-- An input function failing at byte position 3 with a concrete Lisp
error, succeeding elsewhere. -/
def failAt3Input : InputFn := fun bytepos _ _ =>
  if bytepos = 3 then .error (.signal "error" [42]) else .ok "a"

/-- An engine that requests three fragments in document order and always
builds tree `9`. -/
def threeChunkEngine : Engine where
  requests := [(0, 0, 0), (2, 0, 2), (4, 0, 4)]
  mkTree := fun _ _ _ => some ⟨9⟩
  parseString := fun _ _ _ => some ⟨9⟩

/-- Witness for C1: the second of three calls fails; the failing call's
error is returned verbatim, no tree is returned, and the engine received the
empty fragment for that call. -/
theorem parse_chunks_input_error_wins_witness :
    borrowOk none = true ∧
    threeChunkEngine.mkTree p0 (feedFrags failAt3Input
      threeChunkEngine.requests) (baselineOf none) = some ⟨9⟩ ∧
    (threeChunkEngine.requests.map (callErr failAt3Input))[1]? =
      some (some (.signal "error" [42])) ∧
    ((threeChunkEngine.requests.map (callErr failAt3Input)).drop 2).all
      Option.isNone = true ∧
    ((parse_chunks threeChunkEngine p0 failAt3Input none).result =
        some (.error (.signal "error" [42])) ∧
      (∀ t, (parse_chunks threeChunkEngine p0 failAt3Input none).result ≠
        some (.ok t)) ∧
      (parse_chunks threeChunkEngine p0 failAt3Input none).fragments[1]? =
        some "") :=
  ⟨rfl, rfl, by decide, by decide,
    parse_chunks_input_error_wins threeChunkEngine p0 failAt3Input none 1
      (.signal "error" [42]) ⟨9⟩ rfl rfl (by decide) (by decide)⟩

/-- The offset of internal line 0 is the column itself. -/
theorem offsetOfPos_zero (doc : List Nat) (col : Nat) :
    offsetOfPos doc 0 col = col := by
  cases doc <;> rfl

/-- Claim C8: for every byte offset within the bounds of a document,
converting the absolute offset to its internal (line, byte-column) pair and
converting that pair back yields the original offset — the position
conversion is information-preserving. -/
theorem position_roundtrip (doc : List Nat) (off : Nat)
    (h : off ≤ doc.length) :
    offsetOfPos doc (posOfOffset doc off).1 (posOfOffset doc off).2 = off := by
  induction doc generalizing off with
  | nil =>
    have h0 : off = 0 := Nat.le_zero.mp h
    subst h0
    rfl
  | cons b rest ih =>
    cases off with
    | zero => rfl
    | succ n =>
      have hn : n ≤ rest.length := by
        simpa using Nat.succ_le_succ_iff.mp (by simpa using h)
      have ihn := ih n hn
      by_cases hb : b = 10
      · rw [posOfOffset]
        rw [if_pos hb]
        show offsetOfPos (b :: rest) ((posOfOffset rest n).1 + 1)
          (posOfOffset rest n).2 = n + 1
        rw [offsetOfPos, if_pos hb, ihn]
        omega
      · by_cases hl : (posOfOffset rest n).1 = 0
        · rw [posOfOffset, if_neg hb, if_pos hl]
          show offsetOfPos (b :: rest) 0 ((posOfOffset rest n).2 + 1) = n + 1
          rw [offsetOfPos_zero]
          rw [hl, offsetOfPos_zero] at ihn
          omega
        · rw [posOfOffset, if_neg hb, if_neg hl]
          rcases hsucc : (posOfOffset rest n).1 with _ | l
          · exact absurd hsucc hl
          · rw [hsucc] at ihn
            rw [offsetOfPos, if_neg hb, ihn]
            omega

/-- Witness for C8 on the concrete two-line document "ab\ncd" at offset 4
(the byte 'd'). -/
theorem position_roundtrip_witness :
    4 ≤ ([97, 98, 10, 99, 100] : List Nat).length ∧
    offsetOfPos [97, 98, 10, 99, 100]
      (posOfOffset [97, 98, 10, 99, 100] 4).1
      (posOfOffset [97, 98, 10, 99, 100] 4).2 = 4 :=
  ⟨by decide, position_roundtrip [97, 98, 10, 99, 100] 4 (by decide)⟩

end TSC
